import Mathlib

/-!
Verification development for the kScript interpreter
(src/OpenAssignment/OpenAssignment.cpp).

The C++ source is shallowly embedded: IEEE-754 doubles are modelled as
rationals (every value the theorems evaluate is exactly representable),
`std::map` as association lists read through a first-match lookup,
thrown `ParseError`s as an `err` outcome, and C++ undefined behaviour
(reading the top of an empty `std::stack`, dereferencing a failed
`dynamic_cast`, integer division by zero) as an explicit `crash` outcome.
-/

namespace KScript

/-- Result of running a piece of embedded C++ code: normal value, thrown
`ParseError`, or undefined behaviour. -/
inductive Outcome (α : Type) where
  | ok (a : α)
  | err (msg : String)
  | crash
  deriving DecidableEq

/-- A kScript runtime value: `NumericVariable` data or `StringVariable` data. -/
inductive Value where
  | num (x : ℚ)
  | str (s : String)
  deriving DecidableEq

/-- Association-list model of `std::map`: first match wins, insertion conses
(the new entry shadows any older one, giving overwrite semantics). -/
def mapLookup {κ α : Type} [DecidableEq κ] : List (κ × α) → κ → Option α
  | [], _ => none
  | (k, v) :: rest, k' => if k' = k then some v else mapLookup rest k'

/-- Insertion into the association-list map (`map[k] = v`). -/
def mapInsert {κ α : Type} (m : List (κ × α)) (k : κ) (v : α) : List (κ × α) :=
  (k, v) :: m

/-- The variable store `ScriptModule::scriptVariables`; the C++ map sends a
name to a `Variable` carrying that same name, so the name field is implicit. -/
def Store : Type := List (String × Value)

instance : DecidableEq Store := by unfold Store; infer_instance

/- Character classification, C locale restricted to ASCII (the source feeds
`unsigned char` casts of line characters to `isspace`/`ispunct`/`isalnum`). -/

/-- C `isspace`: space, tab, newline, vertical tab, form feed, carriage return. -/
def csIsSpace (c : Char) : Bool := c.toNat = 32 ∨ (9 ≤ c.toNat ∧ c.toNat ≤ 13)

/-- C `isdigit`. -/
def csIsDigit (c : Char) : Bool := 48 ≤ c.toNat ∧ c.toNat ≤ 57

/-- C `isalpha`. -/
def csIsAlpha (c : Char) : Bool :=
  (65 ≤ c.toNat ∧ c.toNat ≤ 90) ∨ (97 ≤ c.toNat ∧ c.toNat ≤ 122)

/-- C `isalnum`. -/
def csIsAlnum (c : Char) : Bool := csIsDigit c ∨ csIsAlpha c

/-- C `ispunct`: printable, not alphanumeric, not space. -/
def csIsPunct (c : Char) : Bool :=
  33 ≤ c.toNat ∧ c.toNat ≤ 126 ∧ ¬(csIsAlnum c = true)

/-- Characters `StringIterator::GetCurOperandString` keeps: stop on
whitespace or punctuation other than `_` (code point 95). -/
def isOperandChar (c : Char) : Bool :=
  ¬(csIsSpace c = true ∨ (csIsPunct c = true ∧ c.toNat ≠ 95))

/-- Characters `StringIterator::GetCurOperatorString` keeps: stop on
alphanumerics, whitespace and the double quote (code point 34). -/
def isOperatorChar (c : Char) : Bool :=
  ¬(csIsAlnum c = true ∨ csIsSpace c = true ∨ c.toNat = 34)

/-- Value of a run of decimal digits. -/
def digitsVal (cs : List Char) : Nat :=
  cs.foldl (fun acc c => acc * 10 + (c.toNat - 48)) 0

/-- Models `std::stod` as used by `ParseNumericConstant` on a lexed operand
run (a maximal run of alphanumerics and underscores): a leading decimal-digit
prefix parses to its value, anything else raises `std::invalid_argument`,
modelled as `none`. Exponent and hexadecimal forms of `strtod` are external
library behaviour not exercised by any program in this development. -/
def ParseNumericConstant (cs : List Char) : Option ℚ :=
  match cs with
  | c :: _ => if csIsDigit c then some ((digitsVal (cs.takeWhile csIsDigit) : Nat) : ℚ) else none
  | [] => none

/-- Truncation toward zero, `static_cast<int>` on a double. Out-of-range
doubles (undefined behaviour in C++) are not exercised by this development. -/
def truncTowardZero (q : ℚ) : Int :=
  if q.num < 0 then -((q.num.natAbs / q.den : Nat) : Int) else ((q.num.natAbs / q.den : Nat) : Int)

/-- C truncated integer division (the sign rule of `/` on `int`). -/
def tdivInt (x y : Int) : Int :=
  if (x < 0) ≠ (y < 0) then -((x.natAbs / y.natAbs : Nat) : Int)
  else ((x.natAbs / y.natAbs : Nat) : Int)

/-- C `%` on machine integers: truncated remainder; a zero divisor is
undefined behaviour. -/
def cppIntRem (x y : Int) : Outcome Int :=
  if y = 0 then .crash else .ok (x - tdivInt x y * y)

/-- Zero-padded six-digit rendering of a natural number below 10^6. -/
def natPad6 (n : Nat) : String :=
  let s := toString n
  String.mk (List.replicate (6 - s.length) (Char.ofNat 48)) ++ s

/-- Models `std::to_string` on a double: fixed-point `%f` rendering with six
decimals (rounding half up on the magnitude, computed on the reduced
numerator and denominator; exact on the integral values this development
prints). -/
def formatF6 (q : ℚ) : String :=
  let n : Nat := (q.num.natAbs * 1000000 * 2 + q.den) / (2 * q.den)
  (if q.num < 0 then "-" else "") ++ toString (n / 1000000) ++ "." ++ natPad6 (n % 1000000)

/-- Modelled from the spec: the external math helper `sqrt n` returns √n
(`std::sqrt` is out of scope per the spec); the model is exact on perfect
squares of naturals, the only inputs this development evaluates. -/
def sqrtQ (q : ℚ) : ℚ := ((Nat.sqrt q.num.toNat : Nat) : ℚ)

/-- Modelled from the spec: the external helper `std::pow` (out of scope per
the spec); exact on integer exponents. -/
def powQ (a b : ℚ) : ℚ := if b.den = 1 then a ^ b.num else 0

/-- `DoubleEquals`: absolute-difference comparison with `EPSILON = 0.0001`. -/
def DoubleEquals (a b : ℚ) : Bool :=
  decide (a - b < (1 : ℚ) / 10000) && decide (-(a - b) < (1 : ℚ) / 10000)

/-- An `OperandToken`: numeric or string constant (`NumericConstantToken`,
`StringConstantToken`) or a reference into the variable store
(`NumericVariableToken`, `StringVariableToken`). -/
inductive OperandTok where
  | numConst (x : ℚ)
  | strConst (s : String)
  | numVar (name : String) (x : ℚ)
  | strVar (name : String) (s : String)
  deriving DecidableEq

/-- The `dynamic_cast<NumericToken*>` test together with `Value()`. -/
def numValue? : OperandTok → Option ℚ
  | .numConst x => some x
  | .numVar _ x => some x
  | _ => none

/-- The `dynamic_cast<StringToken*>` test together with `Value()`. -/
def strValue? : OperandTok → Option String
  | .strConst s => some s
  | .strVar _ s => some s
  | _ => none

/-- The `DualOperandOperation` subclasses, in the order they are registered. -/
inductive DualOp where
  | assign | lor | land | eq | neq | gt | lt | gte | lte
  | bor | band | shl | shr | addNum | addStr | sub | mul | div | mod | pow
  deriving DecidableEq

/-- The `SingleOperandOperation` subclasses. -/
inductive SingleOp where
  | neg | lnot
  deriving DecidableEq

/-- Which `Operator` subclass a descriptor instantiates: `DualOperandOperator`,
`SingleOperandOperator`, or the plain `Operator` base used for the brackets. -/
inductive OpKind where
  | dual (ops : List DualOp)
  | single (ops : List SingleOp)
  | plain
  deriving DecidableEq

/-- True exactly for `DualOperandOperator` descriptors. -/
def OpKind.isDual : OpKind → Bool
  | .dual _ => true
  | _ => false

/-- An `Operator` descriptor. `numOperands` is the stored field of the C++
base class: its constructor initialises it with the literal `0`, discarding
the constructor argument, so every registered operator stores `0`; the
working arity lives in `kind` (the subclass), matching the source's
`dynamic_cast` dispatch. -/
structure Operator where
  symbol : String
  precedence : Int
  numOperands : Nat
  kind : OpKind
  deriving DecidableEq

/-- The `=` descriptor. -/
def opAssign : Operator := ⟨"=", 2, 0, .dual [.assign]⟩

/-- The binary `+` descriptor (numeric addition, then string concatenation). -/
def opAdd : Operator := ⟨"+", 19, 0, .dual [.addNum, .addStr]⟩

/-- The binary `-` descriptor. -/
def opSubtract : Operator := ⟨"-", 19, 0, .dual [.sub]⟩

/-- The `*` descriptor. -/
def opMultiply : Operator := ⟨"*", 21, 0, .dual [.mul]⟩

/-- The unary `-` descriptor. -/
def opNegate : Operator := ⟨"-", 25, 0, .single [.neg]⟩

/-- `s_operators`, in registration order (first symbol match wins in
`StringIterator::ParseOperator`). -/
def s_operators : List Operator :=
  [ opAssign,
    ⟨"||", 5, 0, .dual [.lor]⟩,
    ⟨"&&", 7, 0, .dual [.land]⟩,
    ⟨"==", 13, 0, .dual [.eq]⟩,
    ⟨"!=", 15, 0, .dual [.neq]⟩,
    ⟨">", 15, 0, .dual [.gt]⟩,
    ⟨"<", 15, 0, .dual [.lt]⟩,
    ⟨">=", 15, 0, .dual [.gte]⟩,
    ⟨"<=", 15, 0, .dual [.lte]⟩,
    ⟨"|", 16, 0, .dual [.bor]⟩,
    ⟨"&", 16, 0, .dual [.band]⟩,
    ⟨"<<", 18, 0, .dual [.shl]⟩,
    ⟨">>", 18, 0, .dual [.shr]⟩,
    opAdd,
    opSubtract,
    opMultiply,
    ⟨"/", 21, 0, .dual [.div]⟩,
    ⟨"%", 21, 0, .dual [.mod]⟩,
    ⟨"^", 23, 0, .dual [.pow]⟩,
    opNegate,
    ⟨"!", 27, 0, .single [.lnot]⟩,
    ⟨"(", 80, 0, .plain⟩,
    ⟨")", 80, 0, .plain⟩ ]

/-- `StringIterator::ParseOperator`'s registry scan: first symbol match. -/
def findOperator (s : String) : Option Operator :=
  s_operators.find? (fun o => o.symbol == s)

/-- `DivideOperation::EvalNumeric`. -/
def DivideOperation (x y : ℚ) : Outcome ℚ :=
  if y = 0 then .err "Division by zero" else .ok (x / y)

/-- `ModuloOperation::EvalNumeric`: the guard tests the double operand, the
remainder is then taken on the `static_cast<int>` truncations. -/
def ModuloOperation (x y : ℚ) : Outcome ℚ :=
  if y = 0 then .err "Modulo by zero"
  else
    match cppIntRem (truncTowardZero x) (truncTowardZero y) with
    | .ok r => .ok ((r : Int) : ℚ)
    | .err e => .err e
    | .crash => .crash

/-- Numeric result of the remaining `DualNumericsOperation` subclasses.
Bitwise and shift results follow the C `int` coercions on the values this
development exercises (nonnegative in-range operands). -/
def evalDualNumeric (op : DualOp) (x y : ℚ) : Outcome ℚ :=
  match op with
  | .lor => .ok (if x ≠ 0 ∨ y ≠ 0 then 1 else 0)
  | .land => .ok (if x ≠ 0 ∧ y ≠ 0 then 1 else 0)
  | .eq => .ok (if DoubleEquals x y then 1 else 0)
  | .neq => .ok (if DoubleEquals x y then 0 else 1)
  | .gt => .ok (if y < x then 1 else 0)
  | .lt => .ok (if x < y then 1 else 0)
  | .gte => .ok (if y ≤ x then 1 else 0)
  | .lte => .ok (if x ≤ y then 1 else 0)
  | .bor => .ok (((truncTowardZero x).lor (truncTowardZero y) : Int) : ℚ)
  | .band => .ok (((truncTowardZero x).land (truncTowardZero y) : Int) : ℚ)
  | .shl => .ok ((truncTowardZero x * 2 ^ (truncTowardZero y).toNat : Int) : ℚ)
  | .shr => .ok (((truncTowardZero x).fdiv (2 ^ (truncTowardZero y).toNat) : Int) : ℚ)
  | .addNum => .ok (x + y)
  | .sub => .ok (x - y)
  | .mul => .ok (x * y)
  | .div => DivideOperation x y
  | .mod => ModuloOperation x y
  | .pow => .ok (powQ x y)
  | _ => .ok 0

/-- `AssignVariableOperation::Eval`: the left operand names the variable when
it is a bare `StringConstantToken` or a `VariableToken`; otherwise the name
stays empty and the operation yields no result. -/
def AssignVariableOperation (store : Store) (a b : OperandTok) :
    Outcome (Option (OperandTok × Store)) :=
  let varName : String :=
    match a with
    | .strConst s => s
    | .numVar n _ => n
    | .strVar n _ => n
    | .numConst _ => ""
  if varName = "" then .ok none
  else
    match numValue? b with
    | some v => .ok (some (.numVar varName v, mapInsert store varName (.num v)))
    | none =>
      match strValue? b with
      | some s => .ok (some (.strVar varName s, mapInsert store varName (.str s)))
      | none => .ok none

/-- One registered `DualOperandOperation`: `none` models the `nullptr` a
kind-mismatched `Eval` returns, sending dispatch to the next operation. -/
def evalDualOp (op : DualOp) (store : Store) (a b : OperandTok) :
    Outcome (Option (OperandTok × Store)) :=
  match op with
  | .assign => AssignVariableOperation store a b
  | .addStr =>
    match strValue? a, strValue? b with
    | some x, some y => .ok (some (.strConst (x ++ y), store))
    | _, _ => .ok none
  | o =>
    match numValue? a, numValue? b with
    | some x, some y =>
      match evalDualNumeric o x y with
      | .ok r => .ok (some (.numConst r, store))
      | .err e => .err e
      | .crash => .crash
    | _, _ => .ok none

/-- `DualOperandOperator::Eval`: try the operations in order, first
non-null result wins. -/
def evalDualList : List DualOp → Store → OperandTok → OperandTok →
    Outcome (Option (OperandTok × Store))
  | [], _, _, _ => .ok none
  | op :: rest, store, a, b =>
    match evalDualOp op store a b with
    | .ok (some r) => .ok (some r)
    | .ok none => evalDualList rest store a b
    | .err e => .err e
    | .crash => .crash

/-- One registered `SingleOperandOperation` (`NegateOperation`,
`LogicalNotOperation`): defined on numeric tokens only. -/
def evalSingleOp (op : SingleOp) (a : OperandTok) : Option OperandTok :=
  match numValue? a with
  | some x =>
    match op with
    | .neg => some (.numConst (-x))
    | .lnot => some (.numConst (if x = 0 then 1 else 0))
  | none => none

/-- `SingleOperandOperator::Eval`. -/
def evalSingleList : List SingleOp → OperandTok → Option OperandTok
  | [], _ => none
  | op :: rest, a =>
    match evalSingleOp op a with
    | some r => some r
    | none => evalSingleList rest a

/-- The registered `Function` subclasses. -/
inductive Fn where
  | sqrt | print | if_ | else_ | elseif_ | end_ | while_
  deriving DecidableEq

/-- `Function::name`. -/
def Fn.name : Fn → String
  | .sqrt => "sqrt"
  | .print => "print"
  | .if_ => "if"
  | .else_ => "else"
  | .elseif_ => "elseif"
  | .end_ => "end"
  | .while_ => "while"

/-- `Function::numParams`. -/
def Fn.numParams : Fn → Nat
  | .sqrt => 1
  | .print => 1
  | .if_ => 1
  | .else_ => 0
  | .elseif_ => 1
  | .end_ => 0
  | .while_ => 1

/-- `s_functions` in registration order. -/
def s_functions : List Fn := [.sqrt, .print, .if_, .else_, .elseif_, .end_, .while_]

/-- `ParseFunctionCall`: registry scan by name. -/
def ParseFunctionCall (s : String) : Option Fn :=
  s_functions.find? (fun f => f.name == s)

/-- The `onEnd` action a `while` attaches to its nest-stack entry, with the
captured line held by value (`EndAction` tag as in the spec's design notes). -/
inductive EndAction where
  | whileJumpBack (line : Nat)
  deriving DecidableEq

/-- A `NestedBeginDeclaration`. -/
structure Nest where
  name : String
  line : Nat
  onEnd : Option EndAction
  deriving DecidableEq

/-- An `EndToBegin` record: opener line plus the attached `onEnd` closure. -/
structure EndToBegin where
  lineNumber : Nat
  execute : Option EndAction
  deriving DecidableEq

/-- The compile-time slice of `ScriptModule`: `curLine` models
`curCompileLineIter` (`none` is the interactive interpreter's null iterator),
plus nest stack and the two jump maps. -/
structure CompileState where
  curLine : Option Nat
  nestStack : List Nest
  beginToEndMap : List (Nat × Nat)
  endToBeginMap : List (Nat × EndToBegin)
  deriving DecidableEq

/-- The compile state of a fresh `ScriptModule`. -/
def initialCompileState : CompileState := ⟨none, [], [], []⟩

/-- `ValidateCompilation` of each function: the base class is a no-op,
`NestedFunction` pushes the nest stack (after the interactive-mode check),
`WhileFunction` additionally stores the jump-back action on the new top,
`ElseFunction`/`ElseIfFunction` relink the chain, `EndFunction` records both
jump maps and pops. Reading the current compile line through a null iterator
is undefined behaviour, hence `crash` (unreachable from the drivers). -/
def validateCompilation (f : Fn) (st : CompileState) : Outcome CompileState :=
  match f with
  | .sqrt => .ok st
  | .print => .ok st
  | .if_ =>
    match st.curLine with
    | none => .err "'if' cannot be called from the interactive interpreter"
    | some i => .ok {st with nestStack := ⟨"if", i, none⟩ :: st.nestStack}
  | .while_ =>
    match st.curLine with
    | none => .err "'while' cannot be called from the interactive interpreter"
    | some i => .ok {st with nestStack := ⟨"while", i, some (.whileJumpBack i)⟩ :: st.nestStack}
  | .else_ =>
    match st.nestStack with
    | [] => .err "Misplaced 'else' statement"
    | top :: rest =>
      if top.name ≠ "if" ∧ top.name ≠ "elseif" then .err "Missing 'if' for 'else' statement"
      else
        match st.curLine with
        | none => .crash
        | some cur =>
          .ok {st with beginToEndMap := mapInsert st.beginToEndMap top.line cur,
                       nestStack := ⟨"else", cur, none⟩ :: rest}
  | .elseif_ =>
    match st.nestStack with
    | [] => .err "Misplaced 'elseif' statement"
    | top :: rest =>
      if top.name ≠ "if" ∧ top.name ≠ "elseif" then .err "Missing 'if' for 'elseif' statement"
      else
        match st.curLine with
        | none => .crash
        | some cur =>
          .ok {st with beginToEndMap := mapInsert st.beginToEndMap top.line cur,
                       nestStack := ⟨"elseif", cur, none⟩ :: rest}
  | .end_ =>
    match st.nestStack with
    | [] => .err "'end' statement is missing a begin-type statement (if / while / def)"
    | top :: rest =>
      match st.curLine with
      | none => .crash
      | some cur =>
        .ok {st with beginToEndMap := mapInsert st.beginToEndMap top.line cur,
                     endToBeginMap := mapInsert st.endToBeginMap cur ⟨top.line, top.onEnd⟩,
                     nestStack := rest}

/-- A compiled token: operand, `OperatorToken`, or `FunctionCallToken`. -/
inductive Tok where
  | operand (t : OperandTok)
  | op (o : Operator)
  | fn (f : Fn)
  deriving DecidableEq

/-- An entry of the parser's operator/function stack
(an `OperatorOrFunctionCallToken`). -/
inductive OFItem where
  | op (o : Operator)
  | fn (f : Fn)
  deriving DecidableEq

/-- The `OperatorOrFunction::precedence` field: operators carry their
registered precedence, every `Function` is constructed with 23. -/
def OFItem.precedence : OFItem → Int
  | .op o => o.precedence
  | .fn _ => 23

/-- `OperatorOrFunction::Precedes`: the unary special case applies only when
the incoming entry downcasts to an `Operator` whose stored `numOperands`
equals 1 (the constructor stores 0, so the branch is dead in practice). -/
def Precedes (self other : OFItem) : Bool :=
  match other with
  | .op o =>
    if o.numOperands = 1 then decide (o.precedence < self.precedence)
    else decide (o.precedence ≤ self.precedence)
  | .fn _ => decide (other.precedence ≤ self.precedence)

/-- `IsOpenBracket` on a stack entry. -/
def IsOpenBracketItem : OFItem → Bool
  | .op o => o.symbol == "("
  | .fn _ => false

/-- Moving a stack entry to the output. -/
def ofItemTok : OFItem → Tok
  | .op o => .op o
  | .fn f => .fn f

/-- The parser's pop loop for an incoming non-bracket operator. -/
def popWhilePrecedes : List OFItem → Operator → List Tok × List OFItem
  | [], _ => ([], [])
  | top :: rest, o =>
    if Precedes top (.op o) ∧ ¬(IsOpenBracketItem top = true) then
      let (p, s) := popWhilePrecedes rest o
      (ofItemTok top :: p, s)
    else ([], top :: rest)

/-- The parser's pop loop for `)`: move entries to the output until an
open bracket appears, then discard it; `none` models the
"Mismatched brackets" throw on exhaustion. -/
def popUntilOpenBracket : List OFItem → List Tok → Option (List Tok × List OFItem)
  | [], _ => none
  | top :: rest, acc =>
    if IsOpenBracketItem top then some (acc, rest)
    else popUntilOpenBracket rest (acc ++ [ofItemTok top])

/-- `StringIterator::GetStringInQuotationMarks` after the opening quote:
split at the next double quote, none means the throw. -/
def splitAtQuote (cs : List Char) : Option (List Char × List Char) :=
  match cs.dropWhile (fun c => c.toNat ≠ 34) with
  | [] => none
  | _ :: rest => some (cs.takeWhile (fun c => c.toNat ≠ 34), rest)

/-- The "Mismatched quotation marks" message of the source. -/
def mismatchedQuotesMsg : String :=
  "Mismatched quotation marks (" ++ String.singleton (Char.ofNat 34) ++ ")"

/-- The body of `ParseExpression`: one iteration per fuel unit (each
iteration of the C++ loop consumes at least one character, so fuel equal to
the line length plus one never runs out). The running lexing, shunting and
compile-hook state mirror the source's interleaving. -/
def parseLoop : Nat → List Char → List OFItem → List Tok → CompileState →
    Outcome (List Tok × CompileState)
  | _, [], opstack, acc, st => .ok (acc ++ opstack.map ofItemTok, st)
  | 0, _ :: _, _, _, _ => .err "parse fuel exhausted"
  | fuel + 1, c :: cs, opstack, acc, st =>
    if csIsSpace c then parseLoop fuel cs opstack acc st
    else
      let opStr := (c :: cs).takeWhile isOperatorChar
      if opStr.isEmpty then
        if c.toNat = 34 then
          match splitAtQuote cs with
          | none => .err mismatchedQuotesMsg
          | some (content, rest) =>
            parseLoop fuel rest opstack (acc ++ [.operand (.strConst (String.mk content))]) st
        else
          let opdStr := (c :: cs).takeWhile isOperandChar
          let rest := (c :: cs).dropWhile isOperandChar
          match ParseNumericConstant opdStr with
          | some q => parseLoop fuel rest opstack (acc ++ [.operand (.numConst q)]) st
          | none =>
            match ParseFunctionCall (String.mk opdStr) with
            | some f =>
              match validateCompilation f st with
              | .ok st' => parseLoop fuel rest (.fn f :: opstack) acc st'
              | .err e => .err e
              | .crash => .crash
            | none =>
              parseLoop fuel rest opstack (acc ++ [.operand (.strConst (String.mk opdStr))]) st
      else
        let rest := (c :: cs).dropWhile isOperatorChar
        match findOperator (String.mk opStr) with
        | none => .err ("Unsupported operator " ++ String.mk opStr)
        | some o =>
          if o.symbol = ")" then
            match popUntilOpenBracket opstack acc with
            | none => .err "Mismatched brackets"
            | some (acc', opstack') => parseLoop fuel rest opstack' acc' st
          else if o.symbol = "(" then parseLoop fuel rest (.op o :: opstack) acc st
          else
            let (popped, opstack') := popWhilePrecedes opstack o
            parseLoop fuel rest (.op o :: opstack') (acc ++ popped) st

/-- `ParseExpression` over one source line. -/
def ParseExpression (s : String) (st : CompileState) : Outcome (List Tok × CompileState) :=
  parseLoop (s.toList.length + 1) s.toList [] [] st

/-- The loop of `ScriptModule::Compile`: empty lines are skipped without
emitting a run line; the final check reports an unclosed block. -/
def compileLoop : List String → Nat → CompileState → List (List Tok) →
    Outcome (List (List Tok) × CompileState)
  | [], _, st, acc =>
    match st.nestStack with
    | [] => .ok (acc, st)
    | top :: _ => .err ("Begin-type block '" ++ top.name ++ "' is missing an 'end' specifier")
  | line :: rest, i, st, acc =>
    if line = "" then compileLoop rest (i + 1) st acc
    else
      match ParseExpression line {st with curLine := some i} with
      | .ok (toks, st') => compileLoop rest (i + 1) st' (acc ++ [toks])
      | .err e => .err e
      | .crash => .crash

/-- `ScriptModule::Compile` on the whole file. -/
def Compile (lines : List String) : Outcome (List (List Tok) × CompileState) :=
  compileLoop lines 0 initialCompileState []

/-- The run-time slice of `ScriptModule`: compiled lines, variable store,
jump maps, if-result stack, the run-line cursor (`curRunLineIter` as an
index), and the lines `print` has written to standard output. -/
structure RunModule where
  scriptRunLines : List (List Tok)
  scriptVariables : Store
  beginToEndMap : List (Nat × Nat)
  endToBeginMap : List (Nat × EndToBegin)
  ifResultStack : List Bool
  curRunLine : Nat
  output : List String
  deriving DecidableEq

/-- `ScriptModule::GoToLine`: reassign the run cursor to `line - 1` (the
outer loop advances by one afterwards), but only for positive targets. -/
def GoToLine (m : RunModule) (line : Nat) : RunModule :=
  if 0 < line then {m with curRunLine := line - 1} else m

/-- `ParseVariableToken`: resolve a name against the live variable store. -/
def ParseVariableToken (store : Store) (s : String) : Option OperandTok :=
  match mapLookup store s with
  | some (.num x) => some (.numVar s x)
  | some (.str t) => some (.strVar s t)
  | none => none

/-- The evaluator's operand step: only a `StringConstantToken` is checked
against the variable store. -/
def resolveOperand (store : Store) (t : OperandTok) : OperandTok :=
  match t with
  | .strConst s => (ParseVariableToken store s).getD t
  | _ => t

/-- `ValidateParams` of each function: `sqrt`, `if` and `while` require a
numeric first parameter, the rest accept anything. (`params.at(0)` on an
empty vector is unreachable: the evaluator pops `numParams` values first.) -/
def validateParams : Fn → List OperandTok → Bool
  | .sqrt, params => match params.head? with | some t => (numValue? t).isSome | none => false
  | .if_, params => match params.head? with | some t => (numValue? t).isSome | none => false
  | .while_, params => match params.head? with | some t => (numValue? t).isSome | none => false
  | .print, _ => true
  | .else_, _ => true
  | .elseif_, _ => true
  | .end_, _ => true

/-- `ConditionalFunction::Execute`, shared by `if` and `while`: a numeric
condition sets the flag and, when false, jumps to the recorded closer
(`std::map::operator[]` reads 0 for a missing key); the flag is pushed in
every case. -/
def conditionalExecute (params : List OperandTok) (m : RunModule) : Outcome (ℚ × RunModule) :=
  match params.head? with
  | none => .crash
  | some t =>
    match numValue? t with
    | some v =>
      if v ≠ 0 then .ok (0, {m with ifResultStack := true :: m.ifResultStack})
      else
        let m' := GoToLine m ((mapLookup m.beginToEndMap m.curRunLine).getD 0)
        .ok (0, {m' with ifResultStack := false :: m'.ifResultStack})
    | none => .ok (0, {m with ifResultStack := false :: m.ifResultStack})

/-- `Function::Execute` of each registered function. `elseif` converts its
parameter with an unchecked `dynamic_cast` dereference, so a non-numeric
condition is undefined behaviour; `else` falls off the end of a
double-returning function, the unspecified value is modelled as 0; `end`
invokes the attached `onEnd`, which reads — and does not pop — the top of
the if-result stack. -/
def executeFunction (f : Fn) (params : List OperandTok) (m : RunModule) :
    Outcome (ℚ × RunModule) :=
  match f with
  | .sqrt =>
    match params.head? with
    | none => .crash
    | some t =>
      match numValue? t with
      | some v => .ok (sqrtQ v, m)
      | none => .crash
  | .print =>
    match params.head? with
    | none => .crash
    | some t =>
      let toPrint :=
        match strValue? t with
        | some s => s
        | none =>
          match numValue? t with
          | some v => formatF6 v
          | none => ""
      .ok (1, {m with output := m.output ++ [toPrint]})
  | .if_ => conditionalExecute params m
  | .while_ => conditionalExecute params m
  | .else_ =>
    match m.ifResultStack with
    | [] => .err "Error evaluating else statement (no if result detected)"
    | ifResult :: rest =>
      let m₁ := {m with ifResultStack := rest}
      let m₂ :=
        if ifResult then GoToLine m₁ ((mapLookup m₁.beginToEndMap m₁.curRunLine).getD 0) else m₁
      .ok (0, m₂)
  | .elseif_ =>
    match m.ifResultStack with
    | [] => .err "Error evaluating elseif statement (no if result detected)"
    | ifResult :: rest =>
      match params.head? with
      | none => .crash
      | some t =>
        match numValue? t with
        | none => .crash
        | some v =>
          let result : Bool := decide (v ≠ 0)
          let m₁ := {m with ifResultStack := rest}
          let m₂ :=
            if ifResult = true ∨ ¬(result = true) then
              GoToLine m₁ ((mapLookup m₁.beginToEndMap m₁.curRunLine).getD 0)
            else m₁
          .ok (0, {m₂ with ifResultStack := (if ifResult then true else result) :: rest})
  | .end_ =>
    let e := (mapLookup m.endToBeginMap m.curRunLine).getD ⟨0, none⟩
    match e.execute with
    | some (.whileJumpBack line) =>
      let m' := if m.ifResultStack.head? = some true then GoToLine m line else m
      .ok (0, m')
    | none => .ok (0, m)

/-- The token loop of `EvaluateExpression` over the value stack (head is the
stack top). Popping an empty `std::stack` is undefined behaviour, modelled
as `crash`; note the underflow guard compares against the stored
`numOperands` (always 0) and its message renders that count. -/
def evalTokens : List Tok → List OperandTok → RunModule →
    Outcome (List OperandTok × RunModule)
  | [], stack, m => .ok (stack, m)
  | t :: rest, stack, m =>
    match t with
    | .operand od => evalTokens rest (resolveOperand m.scriptVariables od :: stack) m
    | .op o =>
      if stack.length < o.numOperands then
        .err ("Invalid number of operands for operator " ++ toString o.numOperands)
      else
        match o.kind with
        | .dual ops =>
          match stack with
          | rhs :: lhs :: stack' =>
            match evalDualList ops m.scriptVariables lhs rhs with
            | .ok (some (res, store')) =>
              evalTokens rest (res :: stack') {m with scriptVariables := store'}
            | .ok none => .err ("Invalid operands for operator " ++ o.symbol)
            | .err e => .err e
            | .crash => .crash
          | _ => .crash
        | .single ops =>
          match stack with
          | a :: stack' =>
            match evalSingleList ops a with
            | some res => evalTokens rest (res :: stack') m
            | none => .err ("Invalid operands for operator " ++ o.symbol)
          | [] => .crash
        | .plain => .err ("Invalid operands for operator " ++ o.symbol)
    | .fn f =>
      if stack.length < f.numParams then
        .err ("Invalid number of arguments for function " ++ f.name)
      else
        let params := stack.take f.numParams
        let stack' := stack.drop f.numParams
        if validateParams f params then
          match executeFunction f params m with
          | .ok (res, m') => evalTokens rest (.numConst res :: stack') m'
          | .err e => .err e
          | .crash => .crash
        else .err ("Wrong parameter types for function " ++ f.name)

/-- `EvaluateExpression`: run the postfix tokens and require exactly one
residual value. -/
def EvaluateExpression (tokens : List Tok) (m : RunModule) :
    Outcome (OperandTok × RunModule) :=
  match evalTokens tokens [] m with
  | .ok ([res], m') => .ok (res, m')
  | .ok (_, _) => .err "Not a valid expression"
  | .err e => .err e
  | .crash => .crash

/-- Result of `ScriptModule::Execute` (and of the whole batch run). -/
inductive RunOutcome where
  | done (m : RunModule)
  | runtimeError (line : Nat) (msg : String)
  | crashed
  | outOfFuel
  | syntaxError (msg : String)
  deriving DecidableEq

/-- The loop of `ScriptModule::Execute`: evaluate the line under the cursor,
then advance by one past wherever the line's hooks left the cursor; a thrown
`ParseError` is reported with the 1-based number of the line being
evaluated. Fuel bounds the number of executed lines (the source can loop
forever). -/
def ExecuteLoop : Nat → RunModule → RunOutcome
  | 0, m => if m.scriptRunLines.length ≤ m.curRunLine then .done m else .outOfFuel
  | fuel + 1, m =>
    if m.scriptRunLines.length ≤ m.curRunLine then .done m
    else
      match EvaluateExpression (m.scriptRunLines.getD m.curRunLine []) m with
      | .ok (_, m') => ExecuteLoop fuel {m' with curRunLine := m'.curRunLine + 1}
      | .err e => .runtimeError (m.curRunLine + 1) e
      | .crash => .crashed

/-- The batch driver after reading the file: compile, then execute a fresh
run module that shares the compile pass's jump maps. -/
def runProgram (fuel : Nat) (lines : List String) : RunOutcome :=
  match Compile lines with
  | .ok (toks, cst) => ExecuteLoop fuel ⟨toks, [], cst.beginToEndMap, cst.endToBeginMap, [], 0, []⟩
  | .err e => .syntaxError e
  | .crash => .crashed

/-- Standard-output lines of a completed run. -/
def outputOf : RunOutcome → Option (List String)
  | .done m => some m.output
  | _ => none

/-- Final if-result-stack depth of a completed run. -/
def ifStackDepthOf : RunOutcome → Option Nat
  | .done m => some m.ifResultStack.length
  | _ => none

/-- Final if-result-stack top of a completed run. -/
def ifStackTopOf : RunOutcome → Option Bool
  | .done m => m.ifResultStack.head?
  | _ => none

/-- Whether a run completed normally. -/
def isDone : RunOutcome → Bool
  | .done _ => true
  | _ => false

/-- Final variable store of a completed run. -/
def storeOf : RunOutcome → Option Store
  | .done m => some m.scriptVariables
  | _ => none

/-- The reported runtime error of a run, if any. -/
def runtimeErrorOf : RunOutcome → Option (Nat × String)
  | .runtimeError l e => some (l, e)
  | _ => none

/-- Compile-state projection of a compile result. -/
def compiledState? : Outcome (List (List Tok) × CompileState) → Option CompileState
  | .ok (_, st) => some st
  | _ => none

/-- If-result stack left by a function execution. -/
def ifStackAfter : Outcome (ℚ × RunModule) → Option (List Bool)
  | .ok (_, m) => some m.ifResultStack
  | _ => none

/-- Variable store left by an expression evaluation. -/
def storeAfter : Outcome (OperandTok × RunModule) → Option Store
  | .ok (_, m) => some m.scriptVariables
  | _ => none

/-- One compile-hook firing, as the compile pass performs it: the current
compile line is `i` when `ValidateCompilation` of `f` runs. -/
def applyEvent (st : CompileState) (e : Nat × Fn) : Outcome CompileState :=
  validateCompilation e.2 {st with curLine := some e.1}

/-- The sequence of compile-hook firings of a compile pass, abstracted from
the surrounding lexing (one event per block-function occurrence, tagged with
its compile line; a program with at most one block statement per line fires
them at strictly increasing lines). -/
def compileEvents : List (Nat × Fn) → CompileState → Outcome CompileState
  | [], st => .ok st
  | e :: rest, st =>
    match applyEvent st e with
    | .ok st' => compileEvents rest st'
    | .err m => .err m
    | .crash => .crash

/-- Invariant of the compile state after hooks at lines below `n`: the
`endToBegin` entries invert `beginToEnd`, open nest entries are not yet
`beginToEnd` keys, nest lines strictly decrease upward and all recorded
lines are below `n`. -/
def CompInv (st : CompileState) (n : Nat) : Prop :=
  (∀ E eb, mapLookup st.endToBeginMap E = some eb →
    mapLookup st.beginToEndMap eb.lineNumber = some E) ∧
  (∀ nd ∈ st.nestStack, mapLookup st.beginToEndMap nd.line = none) ∧
  st.nestStack.Pairwise (fun a b => b.line < a.line) ∧
  (∀ nd ∈ st.nestStack, nd.line < n) ∧
  (∀ k v, mapLookup st.beginToEndMap k = some v → k < n)

/-- Boolean the `ConditionalFunction` run hook pushes for a parameter. -/
def condValue (t : OperandTok) : Bool :=
  match numValue? t with
  | some v => decide (v ≠ 0)
  | none => false

/-- The literal operand token of a value on the right of an assignment. -/
def valueToken : Value → OperandTok
  | .num q => .numConst q
  | .str s => .strConst s

/-- The variable token `ParseVariableToken` builds for a stored value. -/
def variableToken (x : String) : Value → OperandTok
  | .num q => .numVar x q
  | .str s => .strVar x s

/-- A double-quote character as a string, for building quoted source text. -/
def qmark : String := String.singleton (Char.ofNat 34)

/-- The program `x = 7` followed by `x = "x"`: the quoted literal on the
second right-hand side names a live variable. -/
def c8prog : List String := ["x = 7", "x = " ++ qmark ++ "x" ++ qmark]

/-- Compile state after `while 1` / `end` (and after the matching event
trace). -/
def c6WitnessState : CompileState :=
  ⟨some 1, [], [(0, 1)], [(1, ⟨0, some (.whileJumpBack 0)⟩)]⟩

/-- Compiled lines of `while 1` / `end`. -/
def c6WitnessLines : List (List Tok) :=
  [[.operand (.numConst 1), .fn .while_], [.fn .end_]]

/-- A run module with no lines and an empty if-result stack. -/
def emptyModule : RunModule := ⟨[], [], [], [], [], 0, []⟩

/-- A run module whose if-result stack holds a single `false`. -/
def oneFalseModule : RunModule := ⟨[], [], [], [], [false], 0, []⟩

/-- A run module positioned on an `end` whose `endToBegin` entry carries a
`while` jump-back to line 2, with a true if-result on top. -/
def c4WitnessModule : RunModule :=
  ⟨[], [], [], [(5, ⟨2, some (.whileJumpBack 2)⟩)], [true], 5, []⟩

/-- Lookup through an inserted entry. -/
theorem mapLookup_insert {κ α : Type} [DecidableEq κ] (m : List (κ × α)) (k k' : κ) (v : α) :
    mapLookup (mapInsert m k v) k' = if k' = k then some v else mapLookup m k' := rfl

/-- A successful compile pass ends with an empty nest stack (the final check
of `ScriptModule::Compile` throws otherwise). -/
theorem compileLoop_nest_empty (ls : List String) :
    ∀ i st acc toks st', compileLoop ls i st acc = .ok (toks, st') → st'.nestStack = [] := by
  induction ls with
  | nil =>
    intro i st acc toks st' h
    rw [compileLoop] at h
    split at h
    next heq => cases h; exact heq
    next => cases h
  | cons l ls ih =>
    intro i st acc toks st' h
    rw [compileLoop] at h
    split at h
    next => exact ih _ _ _ _ _ h
    next =>
      split at h
      next => exact ih _ _ _ _ _ h
      next => cases h
      next => cases h

/-- Weakening the line bound of the compile invariant. -/
theorem CompInv_mono {st : CompileState} {n n' : Nat} (h : CompInv st n) (hle : n ≤ n') :
    CompInv st n' := by
  obtain ⟨h1, h2, h3, h4, h5⟩ := h
  exact ⟨h1, h2, h3, fun nd hnd => lt_of_lt_of_le (h4 nd hnd) hle,
    fun k v hk => lt_of_lt_of_le (h5 k v hk) hle⟩

/-- One compile-hook firing at line `i ≥ n` preserves the compile invariant,
advancing the bound past `i`. -/
theorem applyEvent_inv {st st' : CompileState} {n i : Nat} {f : Fn}
    (hinv : CompInv st n) (hni : n ≤ i) (happ : applyEvent st (i, f) = .ok st') :
    CompInv st' (i + 1) := by
  obtain ⟨h1, h2, h3, h4, h5⟩ := hinv
  have hfresh : mapLookup st.beginToEndMap i = none := by
    cases hk : mapLookup st.beginToEndMap i with
    | none => rfl
    | some v => exact absurd (h5 i v hk) (by omega)
  cases f with
  | sqrt =>
    rw [applyEvent, validateCompilation] at happ
    cases happ
    exact CompInv_mono ⟨h1, h2, h3, h4, h5⟩ (by omega)
  | print =>
    rw [applyEvent, validateCompilation] at happ
    cases happ
    exact CompInv_mono ⟨h1, h2, h3, h4, h5⟩ (by omega)
  | if_ =>
    rw [applyEvent, validateCompilation] at happ
    cases happ
    refine ⟨h1, ?_, ?_, ?_, fun k v hk => by have := h5 k v hk; omega⟩
    · intro nd hnd
      rcases List.mem_cons.mp hnd with rfl | hnd
      · exact hfresh
      · exact h2 nd hnd
    · exact List.pairwise_cons.mpr ⟨fun nd hnd => by have := h4 nd hnd; simp only; omega, h3⟩
    · intro nd hnd
      rcases List.mem_cons.mp hnd with rfl | hnd
      · simp only; omega
      · have := h4 nd hnd; omega
  | while_ =>
    rw [applyEvent, validateCompilation] at happ
    cases happ
    refine ⟨h1, ?_, ?_, ?_, fun k v hk => by have := h5 k v hk; omega⟩
    · intro nd hnd
      rcases List.mem_cons.mp hnd with rfl | hnd
      · exact hfresh
      · exact h2 nd hnd
    · exact List.pairwise_cons.mpr ⟨fun nd hnd => by have := h4 nd hnd; simp only; omega, h3⟩
    · intro nd hnd
      rcases List.mem_cons.mp hnd with rfl | hnd
      · simp only; omega
      · have := h4 nd hnd; omega
  | else_ =>
    cases hnst : st.nestStack with
    | nil => simp only [applyEvent, validateCompilation, hnst] at happ; cases happ
    | cons top rest =>
      simp only [applyEvent, validateCompilation, hnst] at happ
      split at happ
      · cases happ
      · cases happ
        have htopmem : top ∈ st.nestStack := by rw [hnst]; exact List.mem_cons_self top rest
        have htopb2e := h2 top htopmem
        have htopn := h4 top htopmem
        have hpair := h3
        rw [hnst] at hpair
        have hrestlt : ∀ nd ∈ rest, nd.line < top.line := (List.pairwise_cons.mp hpair).1
        refine ⟨?_, ?_, ?_, ?_, ?_⟩
        · intro E eb he
          have hb := h1 E eb he
          have hne : eb.lineNumber ≠ top.line := fun heq => by
            rw [heq, htopb2e] at hb; cases hb
          rw [mapLookup_insert, if_neg hne]
          exact hb
        · intro nd hnd
          rcases List.mem_cons.mp hnd with rfl | hnd
          · rw [mapLookup_insert, if_neg (by simp only; omega)]
            exact hfresh
          · have hmem : nd ∈ st.nestStack := by rw [hnst]; exact List.mem_cons_of_mem top hnd
            rw [mapLookup_insert, if_neg (by have := hrestlt nd hnd; omega)]
            exact h2 nd hmem
        · refine List.pairwise_cons.mpr ⟨fun nd hnd => ?_, (List.pairwise_cons.mp hpair).2⟩
          have hmem : nd ∈ st.nestStack := by rw [hnst]; exact List.mem_cons_of_mem top hnd
          have := h4 nd hmem; simp only; omega
        · intro nd hnd
          rcases List.mem_cons.mp hnd with rfl | hnd
          · simp only; omega
          · have hmem : nd ∈ st.nestStack := by rw [hnst]; exact List.mem_cons_of_mem top hnd
            have := h4 nd hmem; omega
        · intro k v hk
          rw [mapLookup_insert] at hk
          split at hk
          next heq => omega
          next => have := h5 k v hk; omega
  | elseif_ =>
    cases hnst : st.nestStack with
    | nil => simp only [applyEvent, validateCompilation, hnst] at happ; cases happ
    | cons top rest =>
      simp only [applyEvent, validateCompilation, hnst] at happ
      split at happ
      · cases happ
      · cases happ
        have htopmem : top ∈ st.nestStack := by rw [hnst]; exact List.mem_cons_self top rest
        have htopb2e := h2 top htopmem
        have htopn := h4 top htopmem
        have hpair := h3
        rw [hnst] at hpair
        have hrestlt : ∀ nd ∈ rest, nd.line < top.line := (List.pairwise_cons.mp hpair).1
        refine ⟨?_, ?_, ?_, ?_, ?_⟩
        · intro E eb he
          have hb := h1 E eb he
          have hne : eb.lineNumber ≠ top.line := fun heq => by
            rw [heq, htopb2e] at hb; cases hb
          rw [mapLookup_insert, if_neg hne]
          exact hb
        · intro nd hnd
          rcases List.mem_cons.mp hnd with rfl | hnd
          · rw [mapLookup_insert, if_neg (by simp only; omega)]
            exact hfresh
          · have hmem : nd ∈ st.nestStack := by rw [hnst]; exact List.mem_cons_of_mem top hnd
            rw [mapLookup_insert, if_neg (by have := hrestlt nd hnd; omega)]
            exact h2 nd hmem
        · refine List.pairwise_cons.mpr ⟨fun nd hnd => ?_, (List.pairwise_cons.mp hpair).2⟩
          have hmem : nd ∈ st.nestStack := by rw [hnst]; exact List.mem_cons_of_mem top hnd
          have := h4 nd hmem; simp only; omega
        · intro nd hnd
          rcases List.mem_cons.mp hnd with rfl | hnd
          · simp only; omega
          · have hmem : nd ∈ st.nestStack := by rw [hnst]; exact List.mem_cons_of_mem top hnd
            have := h4 nd hmem; omega
        · intro k v hk
          rw [mapLookup_insert] at hk
          split at hk
          next heq => omega
          next => have := h5 k v hk; omega
  | end_ =>
    cases hnst : st.nestStack with
    | nil => simp only [applyEvent, validateCompilation, hnst] at happ; cases happ
    | cons top rest =>
      simp only [applyEvent, validateCompilation, hnst] at happ
      cases happ
      have htopmem : top ∈ st.nestStack := by rw [hnst]; exact List.mem_cons_self top rest
      have htopb2e := h2 top htopmem
      have htopn := h4 top htopmem
      have hpair := h3
      rw [hnst] at hpair
      have hrestlt : ∀ nd ∈ rest, nd.line < top.line := (List.pairwise_cons.mp hpair).1
      refine ⟨?_, ?_, (List.pairwise_cons.mp hpair).2, ?_, ?_⟩
      · intro E eb he
        rw [mapLookup_insert] at he
        split at he
        next heq =>
          cases he
          rw [mapLookup_insert, if_pos rfl, heq]
        next hne =>
          have hb := h1 E eb he
          have hne' : eb.lineNumber ≠ top.line := fun heq => by
            rw [heq, htopb2e] at hb; cases hb
          rw [mapLookup_insert, if_neg hne']
          exact hb
      · intro nd hnd
        have hmem : nd ∈ st.nestStack := by rw [hnst]; exact List.mem_cons_of_mem top hnd
        rw [mapLookup_insert, if_neg (by have := hrestlt nd hnd; omega)]
        exact h2 nd hmem
      · intro nd hnd
        have hmem : nd ∈ st.nestStack := by rw [hnst]; exact List.mem_cons_of_mem top hnd
        have := h4 nd hmem; omega
      · intro k v hk
        rw [mapLookup_insert] at hk
        split at hk
        next heq => omega
        next => have := h5 k v hk; omega

/-- Folding a strictly increasing event trace preserves the invariant's
map-inversion component. -/
theorem compileEvents_inv (events : List (Nat × Fn)) :
    ∀ (st st' : CompileState) (n : Nat), CompInv st n → (∀ e ∈ events, n ≤ e.1) →
      events.Pairwise (fun a b => a.1 < b.1) →
      compileEvents events st = .ok st' →
      ∀ E eb, mapLookup st'.endToBeginMap E = some eb →
        mapLookup st'.beginToEndMap eb.lineNumber = some E := by
  induction events with
  | nil =>
    intro st st' n hinv _ _ h
    cases h
    exact hinv.1
  | cons e rest ih =>
    intro st st' n hinv hbound hpair h
    rw [compileEvents] at h
    cases happ : applyEvent st e with
    | ok st₁ =>
      rw [happ] at h
      have hinv₁ : CompInv st₁ (e.1 + 1) :=
        applyEvent_inv hinv (hbound e (List.mem_cons_self e rest)) happ
      refine ih st₁ st' (e.1 + 1) hinv₁ ?_ (List.pairwise_cons.mp hpair).2 h
      intro e' he'
      have := (List.pairwise_cons.mp hpair).1 e' he'
      omega
    | err m => rw [happ] at h; cases h
    | crash => rw [happ] at h; cases h

/-- C1 (counterexample): the batch program `print 5 + sqrt 9` does not write
the line `8.000000`. When `+` (precedence 19) arrives, `print`
(precedence 23) precedes it and is popped to the output, so `print` receives
only the operand 5. -/
theorem c1_counterexample :
    outputOf (runProgram 20 ["print 5 + sqrt 9"]) ≠ some ["8.000000"] := by decide

/-- C1 (amended): the batch program `print 5 + sqrt 9` writes exactly one
line, `5.000000`: `print` is popped to the output when `+` arrives and its
postfix position gives it only the operand 5; the sum of its return value 1
and `sqrt 9` is evaluated afterwards and discarded. -/
theorem c1_amended :
    outputOf (runProgram 20 ["print 5 + sqrt 9"]) = some ["5.000000"] := by decide

/-- C2: every registered operator stores `numOperands = 0` (the `Operator`
constructor discards its arity argument), so the evaluator's underflow guard
`stack.size() < numOperands` never fires and the
"Invalid number of operands" error is unreachable; on the postfix line
`5 +` the binary operator pops the single value and then reads the top of
the empty value stack — undefined behaviour, not the claimed error. -/
theorem c2_underflow_behavior :
    s_operators.all (fun o => o.numOperands == 0) = true ∧
    runProgram 20 ["5 +"] = .crashed := by
  exact ⟨by decide, by decide⟩

/-- C3 (counterexample): after the complete chain `if 1` / `end` executes,
the if-result stack holds one flag, not the zero it held on entry — `end`
never pops. -/
theorem c3_counterexample :
    ifStackDepthOf (runProgram 20 ["if 1", "end"]) ≠ some 0 := by decide

/-- `GoToLine` touches only the run cursor. -/
theorem GoToLine_ifResultStack (m : RunModule) (l : Nat) :
    (GoToLine m l).ifResultStack = m.ifResultStack := by
  rw [GoToLine]; split <;> rfl

/-- C3 (amended): per-statement effect on the if-result stack — `if` and
`while` push exactly one flag, `elseif` pops one and pushes one, `else`
pops one, and `end` pops nothing, so a chain closed only by `end` leaves
the stack one deeper than on entry. -/
theorem c3_amended :
    (∀ (t : OperandTok) (m : RunModule),
      ifStackAfter (executeFunction .if_ [t] m) = some (condValue t :: m.ifResultStack)) ∧
    (∀ (t : OperandTok) (m : RunModule),
      ifStackAfter (executeFunction .while_ [t] m) = some (condValue t :: m.ifResultStack)) ∧
    (∀ (v : ℚ) (m : RunModule) (b : Bool) (rest : List Bool),
      m.ifResultStack = b :: rest →
      ifStackAfter (executeFunction .elseif_ [.numConst v] m) =
        some ((b || decide (v ≠ 0)) :: rest)) ∧
    (∀ (m : RunModule) (b : Bool) (rest : List Bool),
      m.ifResultStack = b :: rest →
      ifStackAfter (executeFunction .else_ [] m) = some rest) ∧
    (∀ (m : RunModule),
      ifStackAfter (executeFunction .end_ [] m) = some m.ifResultStack) := by
  refine ⟨?_, ?_, ?_, ?_, ?_⟩
  · intro t m
    simp only [executeFunction, conditionalExecute, List.head?_cons]
    cases h : numValue? t with
    | none => simp [ifStackAfter, condValue, h]
    | some v =>
      by_cases hv : v = 0
      · subst hv
        simp [ifStackAfter, condValue, h, GoToLine_ifResultStack]
      · simp [ifStackAfter, condValue, h, hv]
  · intro t m
    simp only [executeFunction, conditionalExecute, List.head?_cons]
    cases h : numValue? t with
    | none => simp [ifStackAfter, condValue, h]
    | some v =>
      by_cases hv : v = 0
      · subst hv
        simp [ifStackAfter, condValue, h, GoToLine_ifResultStack]
      · simp [ifStackAfter, condValue, h, hv]
  · intro v m b rest hstk
    simp only [executeFunction, hstk, List.head?_cons, numValue?]
    cases b <;> simp [ifStackAfter]
  · intro m b rest hstk
    simp only [executeFunction, hstk]
    cases b <;> simp [ifStackAfter, GoToLine_ifResultStack]
  · intro m
    simp only [executeFunction]
    cases hE : ((mapLookup m.endToBeginMap m.curRunLine).getD ⟨0, none⟩).execute with
    | none => simp [hE, ifStackAfter]
    | some a =>
      cases a with
      | whileJumpBack l =>
        simp only [hE, ifStackAfter]
        split <;> simp [GoToLine_ifResultStack, ifStackAfter]

/-- C3 (witness): the amended per-statement effects at concrete inputs. -/
theorem c3_amended_witness :
    ifStackAfter (executeFunction .if_ [.numConst 1] emptyModule) =
      some (condValue (.numConst 1) :: emptyModule.ifResultStack) ∧
    ifStackAfter (executeFunction .while_ [.numConst 0] emptyModule) =
      some (condValue (.numConst 0) :: emptyModule.ifResultStack) ∧
    ifStackAfter (executeFunction .elseif_ [.numConst 1] oneFalseModule) =
      some ((false || decide ((1 : ℚ) ≠ 0)) :: []) ∧
    ifStackAfter (executeFunction .else_ [] oneFalseModule) = some [] ∧
    ifStackAfter (executeFunction .end_ [] oneFalseModule) =
      some oneFalseModule.ifResultStack :=
  ⟨c3_amended.1 (.numConst 1) emptyModule,
   c3_amended.2.1 (.numConst 0) emptyModule,
   c3_amended.2.2.1 1 oneFalseModule false [] rfl,
   c3_amended.2.2.2.1 oneFalseModule false [] rfl,
   c3_amended.2.2.2.2 oneFalseModule⟩

/-- C4 (counterexample): the program `while 1` / `end` terminates — its
`while` sits on the first line (internal index 0), `GoToLine` ignores the
nonpositive target, and the `end` falls through even though the top of the
if-result stack is true; under the claim the `while` line would execute
again. -/
theorem c4_counterexample :
    isDone (runProgram 20 ["while 1", "end"]) = true ∧
    ifStackTopOf (runProgram 20 ["while 1", "end"]) = some true := by
  exact ⟨by decide, by decide⟩

/-- C4 (amended): when the `end` matched to a `while` executes with a true
top of the if-result stack and the `while` occupies line index `L ≥ 1`, the
run cursor is set to `L - 1`, so the outer loop's advance re-executes the
`while` line (re-evaluating its condition); a `while` on the program's first
line is excluded because `GoToLine` ignores the target 0. -/
theorem c4_amended :
    ∀ (m : RunModule) (L : Nat) (eb : EndToBegin) (params : List OperandTok),
      mapLookup m.endToBeginMap m.curRunLine = some eb →
      eb.execute = some (.whileJumpBack L) →
      1 ≤ L →
      m.ifResultStack.head? = some true →
      executeFunction .end_ params m = .ok (0, {m with curRunLine := L - 1}) ∧
      L - 1 + 1 = L := by
  intro m L eb params hlk hex hL htop
  refine ⟨?_, by omega⟩
  simp only [executeFunction, hlk, Option.getD_some, hex]
  rw [if_pos htop, GoToLine, if_pos (by omega : 0 < L)]

/-- C4 (witness): the amended jump at a concrete module. -/
theorem c4_amended_witness :
    executeFunction .end_ [] c4WitnessModule =
      .ok (0, {c4WitnessModule with curRunLine := 1}) ∧ 2 - 1 + 1 = 2 :=
  c4_amended c4WitnessModule 2 ⟨2, some (.whileJumpBack 2)⟩ [] rfl rfl (by omega) rfl

/-- C5: a `-` lexeme in prefix position is not resolved to the unary
descriptor: `StringIterator::ParseOperator` returns the first registered
symbol match, the binary `-` of precedence 19 (the unary descriptor of
precedence 25 is unreachable), and on `2 ^ - 3` the resulting postfix
`2 ^ 3 -` underflows the value stack at `^` — undefined behaviour instead
of computing 2 to the power −3. -/
theorem c5_minus_resolution :
    findOperator "-" = some opSubtract ∧
    opSubtract.precedence = 19 ∧
    opSubtract.kind.isDual = true ∧
    runProgram 20 ["2 ^ - 3"] = .crashed := by
  exact ⟨by decide, rfl, rfl, by decide⟩

/-- C6 (counterexample): the chain `if 1` / `1` / `elseif 1` / `else` /
`end` compiles, `beginToEnd` maps the `if` line 0 to the `elseif` line 2,
and `endToBegin` has no key 2 — the maps are not mutual inverses on their
domains. -/
theorem c6_counterexample :
    (compiledState? (Compile ["if 1", "1", "elseif 1", "else", "end"])).isSome = true ∧
    ((compiledState? (Compile ["if 1", "1", "elseif 1", "else", "end"])).bind
      (fun st => mapLookup st.beginToEndMap 0)) = some 2 ∧
    ((compiledState? (Compile ["if 1", "1", "elseif 1", "else", "end"])).bind
      (fun st => mapLookup st.endToBeginMap 2)) = none := by
  exact ⟨by decide, by decide, by decide⟩

/-- C6 (amended): after a successful compile pass the nest stack is empty,
and the inversion holds in the `endToBegin` direction: when the compile
hooks fire at strictly increasing lines (at most one block statement per
line), every `endToBegin` entry `E ↦ eb` satisfies
`beginToEnd[eb.lineNumber] = E`. The other direction fails because
`beginToEnd` also links each chain opener to the next `elseif`/`else`. -/
theorem c6_amended :
    (∀ (lines : List String) (toks : List (List Tok)) (st : CompileState),
      Compile lines = .ok (toks, st) → st.nestStack = []) ∧
    (∀ (events : List (Nat × Fn)) (st : CompileState),
      events.Pairwise (fun a b => a.1 < b.1) →
      compileEvents events initialCompileState = .ok st →
      ∀ E eb, mapLookup st.endToBeginMap E = some eb →
        mapLookup st.beginToEndMap eb.lineNumber = some E) := by
  constructor
  · intro lines toks st h
    exact compileLoop_nest_empty lines 0 initialCompileState [] toks st h
  · intro events st hpair hok
    refine compileEvents_inv events initialCompileState st 0 ?_ (fun e _ => Nat.zero_le _)
      hpair hok
    refine ⟨?_, ?_, ?_, ?_, ?_⟩ <;>
      simp [initialCompileState, mapLookup, List.Pairwise.nil]

/-- C6 (witness): both amended parts at the program `while 1` / `end` and
its event trace. -/
theorem c6_amended_witness :
    Compile ["while 1", "end"] = .ok (c6WitnessLines, c6WitnessState) ∧
    c6WitnessState.nestStack = [] ∧
    compileEvents [(0, Fn.while_), (1, Fn.end_)] initialCompileState = .ok c6WitnessState ∧
    mapLookup c6WitnessState.beginToEndMap 0 = some 1 :=
  ⟨by decide, c6_amended.1 ["while 1", "end"] c6WitnessLines c6WitnessState (by decide),
   by decide,
   c6_amended.2 [(0, Fn.while_), (1, Fn.end_)] c6WitnessState (by decide) (by decide)
     1 ⟨0, some (.whileJumpBack 0)⟩ (by decide)⟩

/-- C7: for any two registered binary operators `A` and `B` with
`B.precedence ≤ A.precedence` — strictly higher precedence of `A` or equal
precedence, where the left-associative rule of `Precedes` applies — the line
`1 A 2 B 3` parses to the postfix of `(1 A 2) B 3`. -/
theorem c7_binary_left_assoc :
    ∀ A ∈ s_operators, ∀ B ∈ s_operators,
      A.kind.isDual = true → B.kind.isDual = true →
      B.precedence ≤ A.precedence →
      ParseExpression ("1 " ++ A.symbol ++ " 2 " ++ B.symbol ++ " 3") initialCompileState =
        .ok ([.operand (.numConst 1), .operand (.numConst 2), .op A,
              .operand (.numConst 3), .op B], initialCompileState) := by decide

/-- C7 (witness): `1 * 2 + 3` parses to `1 2 * 3 +`. -/
theorem c7_witness :
    ParseExpression ("1 " ++ opMultiply.symbol ++ " 2 " ++ opAdd.symbol ++ " 3")
        initialCompileState =
      .ok ([.operand (.numConst 1), .operand (.numConst 2), .op opMultiply,
            .operand (.numConst 3), .op opAdd], initialCompileState) :=
  c7_binary_left_assoc opMultiply (by decide) opAdd (by decide) rfl rfl (by decide)

/-- C8 (counterexample): after `x = 7`, the line `x = "x"` does not bind `x`
to the string value `"x"` — the quoted constant names the live variable `x`
and is resolved to its current numeric value before the assignment runs, so
`x` stays bound to the number 7. -/
theorem c8_counterexample :
    ((storeOf (runProgram 20 c8prog)).bind fun s => mapLookup s "x") = some (.num 7) ∧
    Value.num 7 ≠ Value.str ("x") := by
  exact ⟨by decide, by decide⟩

/-- C8 (amended): evaluating the postfix of `x = v` for a nonempty
identifier `x` updates the store to map `x` to `v` with `v`'s kind,
overwriting any prior binding, and a later occurrence of `x` in operand
position resolves to that stored value — provided a string `v` does not
itself name a live variable (such a constant is replaced by that variable's
current value before the assignment pops it). -/
theorem c8_amended :
    ∀ (S : Store) (x : String) (v : Value),
      x ≠ "" →
      (∀ s, v = .str s → mapLookup S s = none) →
      storeAfter (EvaluateExpression
          [.operand (.strConst x), .operand (valueToken v), .op opAssign]
          ⟨[], S, [], [], [], 0, []⟩) = some (mapInsert S x v) ∧
      mapLookup (mapInsert S x v) x = some v ∧
      ParseVariableToken (mapInsert S x v) x = some (variableToken x v) := by
  intro S x v hx hv
  refine ⟨?_, ?_, ?_⟩
  · cases v with
    | num q =>
      simp only [EvaluateExpression, evalTokens, valueToken, resolveOperand, opAssign,
        evalDualList, evalDualOp, AssignVariableOperation, numValue?, storeAfter]
      cases hS : ParseVariableToken S x with
      | none => simp [hx, storeAfter]
      | some t =>
        rw [ParseVariableToken] at hS
        cases hL : mapLookup S x with
        | none => rw [hL] at hS; cases hS
        | some w =>
          rw [hL] at hS
          cases w with
          | num a => cases hS; simp [hx, storeAfter]
          | str a => cases hS; simp [hx, storeAfter]
    | str s =>
      have hs : mapLookup S s = none := hv s rfl
      simp only [EvaluateExpression, evalTokens, valueToken, resolveOperand, opAssign,
        evalDualList, evalDualOp, AssignVariableOperation, numValue?, strValue?,
        ParseVariableToken, hs, storeAfter]
      cases hL : mapLookup S x with
      | none => simp [hx, storeAfter]
      | some w =>
        cases w with
        | num a => simp [hx, storeAfter]
        | str a => simp [hx, storeAfter]
  · cases v <;> simp [mapLookup_insert]
  · cases v <;> simp [ParseVariableToken, mapLookup_insert, variableToken]

/-- C8 (witness): the amended round trip at `y = 5` over the empty store. -/
theorem c8_amended_witness :
    storeAfter (EvaluateExpression
        [.operand (.strConst "y"), .operand (valueToken (.num 5)), .op opAssign]
        ⟨[], [], [], [], [], 0, []⟩) = some (mapInsert [] "y" (.num 5)) ∧
    mapLookup (mapInsert ([] : Store) "y" (.num 5)) "y" = some (.num 5) ∧
    ParseVariableToken (mapInsert [] "y" (.num 5)) "y" = some (variableToken "y" (.num 5)) :=
  c8_amended [] "y" (.num 5) (by decide) (fun s h => by cases h)

/-- C9: through the `/` and `%` dispatch on numeric operands, division
raises "Division by zero" exactly when the divisor is 0 and otherwise
returns the quotient; modulo raises "Modulo by zero" exactly when the
divisor is 0, but for a nonzero divisor it divides by the `static_cast<int>`
truncation, so a divisor strictly between 0 and 1 in magnitude reaches an
integer division by zero — undefined behaviour instead of the claimed
numeric result (failing input a = 1, b = 1/2); the pipeline reports
`print 10 / 0` as a line-1 "Division by zero" runtime error. -/
theorem c9_division_modulo :
    (∀ (s : Store) (a b : ℚ),
      evalDualOp .div s (.numConst a) (.numConst b) =
        if b = 0 then .err "Division by zero" else .ok (some (.numConst (a / b), s))) ∧
    (∀ (s : Store) (a b : ℚ),
      evalDualOp .mod s (.numConst a) (.numConst b) =
        if b = 0 then .err "Modulo by zero"
        else if truncTowardZero b = 0 then .crash
        else .ok (some (.numConst
          ((truncTowardZero a - tdivInt (truncTowardZero a) (truncTowardZero b) *
              truncTowardZero b : Int) : ℚ), s))) ∧
    evalDualOp .mod [] (.numConst 1) (.numConst (mkRat 1 2)) = .crash ∧
    runtimeErrorOf (runProgram 20 ["print 10 / 0"]) = some (1, "Division by zero") := by
  refine ⟨?_, ?_, by decide, by decide⟩
  · intro s a b
    by_cases hb : b = 0 <;>
      simp [evalDualOp, evalDualNumeric, DivideOperation, numValue?, hb]
  · intro s a b
    by_cases hb : b = 0
    · simp [evalDualOp, evalDualNumeric, ModuloOperation, numValue?, hb]
    · by_cases ht : truncTowardZero b = 0 <;>
        simp [evalDualOp, evalDualNumeric, ModuloOperation, cppIntRem, numValue?, hb, ht]

/-- C10: the `elseif` validator accepts every parameter list, so the
"Wrong parameter types" error is unreachable for `elseif`; the `if` and
`while` validator is exactly the numeric test on the condition; and the
`elseif` run hook dereferences a failed `dynamic_cast` on any non-numeric
condition — undefined behaviour — whenever an if-result is present to pop. -/
theorem c10_elseif_validation :
    (∀ (params : List OperandTok), validateParams .elseif_ params = true) ∧
    (∀ (t : OperandTok), validateParams .if_ [t] = (numValue? t).isSome ∧
      validateParams .while_ [t] = (numValue? t).isSome) ∧
    (∀ (t : OperandTok) (m : RunModule),
      m.ifResultStack ≠ [] → numValue? t = none →
      executeFunction .elseif_ [t] m = .crash) := by
  refine ⟨fun _ => rfl, fun t => ⟨rfl, rfl⟩, ?_⟩
  intro t m hne hnum
  cases hstk : m.ifResultStack with
  | nil => exact absurd hstk hne
  | cons b rest => simp [executeFunction, hstk, hnum]

/-- C10 (witness): a string condition under a popped if-result crashes the
`elseif` hook. -/
theorem c10_elseif_validation_witness :
    executeFunction .elseif_ [.strConst "s"] oneFalseModule = .crash :=
  c10_elseif_validation.2.2 (.strConst "s") oneFalseModule (by decide) rfl

end KScript
